import Mathlib

/-!
# Verification of the `redo` retry library

A shallow embedding of the core of the `redo` Go package (`redo.go`,
`errors.go`, `options.go`, `status.go` and the `backoff` sub-package),
together with proofs of the specified properties.

Modelling conventions:

* Go `error` values are modelled by the inductive type `GoErr`.  The
  constructors correspond to the concrete error values/types the package
  manipulates: an ordinary opaque error (`base`, identified by a string,
  standing for a distinct error value), the sentinels `context.Canceled`
  and `context.DeadlineExceeded`, and the wrapper types `*haltErr`,
  `*exhaustedErr` and `*RefreshError` from `errors.go`.
* `errors.Is(err, context.Canceled)` (the only `errors.Is` query the engine
  performs) is modelled by `isCanceledErr`, which follows the `Unwrap`
  methods of the wrapper types: `*haltErr` and `*exhaustedErr` unwrap to
  their cause, `*RefreshError.Unwrap` yields `[errors.Join(refreshErr,
  retryErr), retryErr]`, which matches `context.Canceled` exactly when the
  refresh error or the retry error does.  The sentinels are distinct values
  with no `Unwrap`/`Is` methods, so `context.DeadlineExceeded` does not
  match `context.Canceled`.
* The controlling `context.Context` is modelled by `CtxModel`: `cause` is
  the value `context.Cause(ctx)` returns (`none` while the context is not
  cancelled), and `doneAtWait n` says whether `ctx.Done()` is closed during
  the delay wait that follows attempt `n`.
* The retry loop of `FnCtx` runs until a terminal classification; in the
  embedding it takes an explicit `fuel` bound and returns `none` when the
  fuel runs out before the loop terminates (every theorem supplies enough
  fuel).  Delays never influence control flow in the source (the timer
  always fires unless the context is done first), so the backoff iterator
  is abstracted by the pulled delay sequence `delays : ℕ → ℤ`
  (`time.Duration` is an `int64`).
* `float64` arithmetic in the `backoff` package is modelled by exact real
  arithmetic, `time.Duration` quantities by integers, and the final
  `time.Duration(out)` conversion by the identity on the real value.
-/

/-- Go error values, as used by the `redo` package (`errors.go`):
`base s` is an ordinary opaque error value, `canceled` is
`context.Canceled`, `deadlineExceeded` is `context.DeadlineExceeded`,
`halt e` is `*haltErr{e}`, `exhausted e` is `*exhaustedErr{e}`, and
`refresh r t` is `*RefreshError{err: errors.Join(r, t), retryErr: t}`. -/
inductive GoErr where
  | base (s : String)
  | canceled
  | deadlineExceeded
  | halt (e : GoErr)
  | exhausted (e : GoErr)
  | refresh (refreshErr retryErr : GoErr)
  deriving DecidableEq, Repr

/-- `errors.Is(e, context.Canceled)`: walks the `Unwrap` chain of `e`.
Only `context.Canceled` itself matches; `*haltErr`/`*exhaustedErr` unwrap
to their cause; `*RefreshError` unwraps to the join of its two causes. -/
def isCanceledErr : GoErr → Bool
  | .canceled => true
  | .halt e => isCanceledErr e
  | .exhausted e => isCanceledErr e
  | .refresh r t => isCanceledErr r || isCanceledErr t
  | _ => false

/-- `redo.Halted`: a type assertion `e.(*haltErr)` on the top-level value
(no unwrapping), from `redo.go`. -/
def Halted : GoErr → Bool
  | .halt _ => true
  | _ => false

/-- `redo.Exhausted`: a type assertion `e.(*exhaustedErr)` on the
top-level value (no unwrapping), from `errors.go`. -/
def Exhausted : GoErr → Bool
  | .exhausted _ => true
  | _ => false

/-- `redo.Halt`: wrap an error as `*haltErr` (from `redo.go`). -/
def Halt (e : GoErr) : GoErr := .halt e

/-- `errExhausted`: wrap an error as `*exhaustedErr` (from `errors.go`). -/
def errExhausted (e : GoErr) : GoErr := .exhausted e

/-- `errRefresh`: build a `*RefreshError` from the refresh failure and the
error that triggered the retry (from `errors.go`). -/
def errRefresh (refreshErr retryErr : GoErr) : GoErr := .refresh refreshErr retryErr

/-- `redo.Status` (`status.go`): the per-attempt snapshot placed in the
operation's context and passed to the `Each` observer.  `nextDelay` is a
`time.Duration`, i.e. an `int64` count of nanoseconds. -/
structure Status where
  tryNumber : ℕ
  maxTries : ℤ
  err : Option GoErr
  nextDelay : ℤ
  deriving DecidableEq, Repr

/-- The controlling `context.Context` as the engine observes it:
`cause` is the result of `context.Cause(ctx)` (`none` while the context is
not cancelled), `doneAtWait n` says whether `ctx.Done()` is closed during
the delay wait following attempt `n`. -/
structure CtxModel where
  cause : Option GoErr
  doneAtWait : ℕ → Bool

/-- The resolved `opts` structure consumed by `FnCtx` (`options.go`).
`hasEach` records whether an `Each` observer is configured (`eachFn !=
nil`); the observer itself is modelled by recording the statuses it is
called with.  `noCause` is the field set by `CtxCause`/`WithPolicy`; as in
the source, the retry loop never consults it. -/
structure EngineOpts where
  maxTries : ℤ
  haltFn : Option (GoErr → Bool)
  hasEach : Bool
  noCause : Bool

/-- The option `redo.CtxCause(enabled)` (`options.go`): sets
`o.noCause = !enabled`. -/
def CtxCause (enabled : Bool) (o : EngineOpts) : EngineOpts :=
  { o with noCause := !enabled }

/-- The outcome of one engine run: the returned error (`none` = `nil`),
the number of operation invocations performed, and the list of statuses
the `Each` observer was invoked with, in order. -/
structure RunResult where
  err : Option GoErr
  tries : ℕ
  observed : List Status
  deriving DecidableEq, Repr

/-- The `switch` at the end of `FnCtx`'s loop body (`redo.go`), applied to
the failed attempt's error `e` after `try++` has made `tn` the number of
completed attempts.  `some r` means a terminal return with value `r`
(`r = none` is a `nil` return); `none` means the loop continues.
The four cases, in source order:
`errors.Is(lastErr, context.Canceled)` → `return context.Cause(ctx)`;
`Halted(lastErr)` → `return lastErr`;
`opts.haltFn != nil && opts.haltFn(lastErr)` → `return Halt(lastErr)`;
`opts.maxTries > 0 && try == opts.maxTries` → `return errExhausted(lastErr)`. -/
def classify (opts : EngineOpts) (cause : Option GoErr) (tn : ℕ) (e : GoErr) :
    Option (Option GoErr) :=
  if isCanceledErr e then some cause
  else if Halted e then some (some e)
  else if (match opts.haltFn with | some f => f e | none => false) then some (some (Halt e))
  else if 0 < opts.maxTries ∧ (tn : ℤ) = opts.maxTries then some (some (errExhausted e))
  else none

/-- The body of `FnCtx`'s retry loop (`redo.go`), with explicit state:
`try0` is the current value of `try` (attempts completed so far),
`lastErr` the previous attempt's error, `obs` the observer calls so far.
Each iteration: pull the next delay, build the `Status` (with the
*previous* error) and pass it to the operation via its context; on `nil`
return success; otherwise set `status.Err` to the new error, call the
observer if configured, increment `try`, run the classification `switch`,
and if not terminal wait out the delay racing `ctx.Done()` (if the
context is done first, return `context.Cause(ctx)`), else loop. -/
def FnCtxLoop (opts : EngineOpts) (cm : CtxModel) (delays : ℕ → ℤ)
    (op : Status → Option GoErr) :
    ℕ → ℕ → Option GoErr → List Status → Option RunResult
  | 0, _, _, _ => none
  | fuel + 1, try0, lastErr, obs =>
    match op ⟨try0 + 1, opts.maxTries, lastErr, delays try0⟩ with
    | none => some ⟨none, try0 + 1, obs⟩
    | some e =>
      let obs2 := if opts.hasEach
        then obs ++ [⟨try0 + 1, opts.maxTries, some e, delays try0⟩] else obs
      match classify opts cm.cause (try0 + 1) e with
      | some r => some ⟨r, try0 + 1, obs2⟩
      | none =>
        if cm.doneAtWait (try0 + 1) then some ⟨cm.cause, try0 + 1, obs2⟩
        else FnCtxLoop opts cm delays op fuel (try0 + 1) (some e) obs2

/-- `redo.FnCtx` (`redo.go`): run the retry loop from its initial state
(`try = 0`, no previous error, no observer calls yet). -/
def FnCtxRun (opts : EngineOpts) (cm : CtxModel) (delays : ℕ → ℤ)
    (op : Status → Option GoErr) (fuel : ℕ) : Option RunResult :=
  FnCtxLoop opts cm delays op fuel 0 none []

/-- The input argument used by the `FnInCtxRefr` adapter (`redo.go`) at
attempt `k + 1`: the wrapper closes over `fnArg`, and after each failed
attempt calls `refreshFn` — on success it replaces `fnArg` with the new
value, on failure it leaves `fnArg` unchanged (stale).  The retried
function's behaviour is indexed by the attempt number, `refreshFn`'s by
the (failed) attempt it follows; `Sum.inl` is a refresh failure,
`Sum.inr` a refreshed value. -/
def refrArg {IN : Type} (fn : ℕ → IN → Option GoErr) (refreshFn : ℕ → GoErr ⊕ IN)
    (fnArg : IN) : ℕ → IN
  | 0 => fnArg
  | k + 1 =>
    let a := refrArg fn refreshFn fnArg k
    match fn (k + 1) a with
    | none => a
    | some _ =>
      match refreshFn (k + 1) with
      | Sum.inr a2 => a2
      | Sum.inl _ => a

/-- The error the `FnInCtxRefr` wrapper returns to the engine for attempt
`k` (`redo.go`): the underlying function's error, except that when the
function fails and the refresh step also fails, the composite
`errRefresh(refreshErr, err)` is substituted. -/
def refrOp {IN : Type} (fn : ℕ → IN → Option GoErr) (refreshFn : ℕ → GoErr ⊕ IN)
    (fnArg : IN) (k : ℕ) : Option GoErr :=
  match fn k (refrArg fn refreshFn fnArg (k - 1)) with
  | none => none
  | some e =>
    match refreshFn k with
    | Sum.inl refreshErr => some (errRefresh refreshErr e)
    | Sum.inr _ => some e

/-- `redo.FnInCtxRefr` (`redo.go`): `FnCtx` applied to the refresh-wrapped
operation. -/
def FnInCtxRefrRun {IN : Type} (opts : EngineOpts) (cm : CtxModel) (delays : ℕ → ℤ)
    (fn : ℕ → IN → Option GoErr) (refreshFn : ℕ → GoErr ⊕ IN) (fnArg : IN)
    (fuel : ℕ) : Option RunResult :=
  FnCtxRun opts cm delays (fun st => refrOp fn refreshFn fnArg st.tryNumber) fuel

/-- The loop of `FnCtx` as invoked by `redo.FnOutCtx` (`redo.go`): the
wrapped closure stores each invocation's `OUT` value into the captured
`val` before returning its error, so the loop additionally threads the
most recently produced value (initially the zero value of `OUT`). -/
def FnOutCtxLoop {OUT : Type} (opts : EngineOpts) (cm : CtxModel) (delays : ℕ → ℤ)
    (fn : Status → OUT × Option GoErr) :
    ℕ → ℕ → Option GoErr → List Status → OUT → Option (OUT × RunResult)
  | 0, _, _, _, _ => none
  | fuel + 1, try0, lastErr, obs, _val =>
    match fn ⟨try0 + 1, opts.maxTries, lastErr, delays try0⟩ with
    | (v, none) => some (v, ⟨none, try0 + 1, obs⟩)
    | (v, some e) =>
      let obs2 := if opts.hasEach
        then obs ++ [⟨try0 + 1, opts.maxTries, some e, delays try0⟩] else obs
      match classify opts cm.cause (try0 + 1) e with
      | some r => some (v, ⟨r, try0 + 1, obs2⟩)
      | none =>
        if cm.doneAtWait (try0 + 1) then some (v, ⟨cm.cause, try0 + 1, obs2⟩)
        else FnOutCtxLoop opts cm delays fn fuel (try0 + 1) (some e) obs2 v

/-- `redo.FnOutCtx` (`redo.go`): run `FnCtx` on the value-capturing
closure, then return `(zero, err)` when the run failed and `(val, nil)`
when it succeeded.  `zeroV` is the zero value of `OUT` (`var zero OUT`). -/
def FnOutCtxRun {OUT : Type} (opts : EngineOpts) (cm : CtxModel) (delays : ℕ → ℤ)
    (fn : Status → OUT × Option GoErr) (zeroV : OUT) (fuel : ℕ) :
    Option (OUT × Option GoErr) :=
  match FnOutCtxLoop opts cm delays fn fuel 0 none [] zeroV with
  | none => none
  | some (val, r) =>
    match r.err with
    | some e => some (zeroV, some e)
    | none => some (val, none)

/-- `redo.FnIOCtx` (`redo.go`): like `FnOutCtx` but the operation also
receives the fixed input argument `fnArg` (via `FnInCtx`). -/
def FnIOCtxRun {IN OUT : Type} (opts : EngineOpts) (cm : CtxModel) (delays : ℕ → ℤ)
    (fn : Status → IN → OUT × Option GoErr) (fnArg : IN) (zeroV : OUT) (fuel : ℕ) :
    Option (OUT × Option GoErr) :=
  FnOutCtxRun opts cm delays (fun st => fn st fnArg) zeroV fuel




/-! ## The `backoff` sub-package

`backoff.New(initialMedian, maxDelay, firstFast)` returns a closure over
the int counter `i` (here `BackoffState.i`) and the float `prev` (here
`BackoffState.prev`).  The per-call fresh `rand.Float64()` sample is an
explicit argument `u`.  `float64` values are modelled as exact reals,
`time.Duration` arguments as integers (`int64`). -/

/-- `math.MaxInt64` converted to the model's exact reals. -/
noncomputable def maxInt64R : ℝ := 2 ^ 63 - 1

/-- The constant `maxintf = float64(math.MaxInt64) - 1` from the
`backoff` package, the backstop against float64→int64 overflow. -/
noncomputable def maxintf : ℝ := maxInt64R - 1

/-- The constant `smoothing = 4.0` from the `backoff` package. -/
noncomputable def smoothing : ℝ := 4.0

/-- The unclamped envelope computed inside the iterator:
`next := math.Pow(2, t) * math.Tanh(math.Sqrt(smoothing*t))`. -/
noncomputable def curve (t : ℝ) : ℝ :=
  2 ^ t * Real.tanh (Real.sqrt (smoothing * t))

/-- Modelled from the spec (§4.1, step 3), for the refinement comparison:
`raw = 2^t · tanh(sqrt(S·t))` with the fixed smoothing constant S = 4.0. -/
noncomputable def specRawEnvelope (t : ℝ) : ℝ :=
  2 ^ t * Real.tanh (Real.sqrt (4.0 * t))

/-- The mutable state of one `backoff` iterator: the iteration counter
`i` and the previous unscaled envelope value `prev` (both start at 0). -/
structure BackoffState where
  i : ℕ
  prev : ℝ

open Classical in
/-- One call of the iterator returned by `backoff.New` (`backoff.go`),
given the fresh uniform sample `u` drawn by `rand.Float64()`:
if `i == 0 && firstFast`, increment `i` and return `0`; otherwise
`t := float64(i) + u`, `i++`, `next := curve t`,
`out := (next - prev) * float64(initialMedian)`, and then
`maxDelay > 0 && out > float64(maxDelay)` → return `maxDelay` (no update
of `prev`); `out > maxintf` → return `math.MaxInt64` (no update of
`prev`); otherwise `prev = next` and return `out`. -/
noncomputable def backoffNext (initialMedian maxDelay : ℤ) (firstFast : Bool)
    (u : ℝ) (s : BackoffState) : ℝ × BackoffState :=
  if s.i = 0 ∧ firstFast = true then (0, ⟨s.i + 1, s.prev⟩)
  else if 0 < maxDelay ∧
      (maxDelay : ℝ) < (curve ((s.i : ℝ) + u) - s.prev) * (initialMedian : ℝ) then
    ((maxDelay : ℝ), ⟨s.i + 1, s.prev⟩)
  else if maxintf < (curve ((s.i : ℝ) + u) - s.prev) * (initialMedian : ℝ) then
    (maxInt64R, ⟨s.i + 1, s.prev⟩)
  else
    ((curve ((s.i : ℝ) + u) - s.prev) * (initialMedian : ℝ), ⟨s.i + 1, curve ((s.i : ℝ) + u)⟩)

/-! ## Helper lemmas about the retry loop -/

/-- The statuses the observer records over `n` consecutive failed attempts
following `try0` completed attempts, when attempt `k` fails with `errs k`
(the snapshot's `Err` field is overwritten with the attempt's own error
before the observer runs). -/
def obsFrom (mt : ℤ) (delays : ℕ → ℤ) (errs : ℕ → GoErr) : ℕ → ℕ → List Status
  | _, 0 => []
  | try0, n + 1 =>
    ⟨try0 + 1, mt, some (errs (try0 + 1)), delays try0⟩ ::
      obsFrom mt delays errs (try0 + 1) n

lemma obsFrom_length (mt : ℤ) (delays : ℕ → ℤ) (errs : ℕ → GoErr) :
    ∀ try0 n, (obsFrom mt delays errs try0 n).length = n := by
  intro try0 n
  induction n generalizing try0 with
  | zero => rfl
  | succ m ih => simp [obsFrom, ih]

lemma classify_continue (opts : EngineOpts) (cause : Option GoErr) (tn : ℕ) (e : GoErr)
    (hcan : isCanceledErr e = false) (hhalted : Halted e = false)
    (hhalt : opts.haltFn = none)
    (hmt : ¬(0 < opts.maxTries ∧ (tn : ℤ) = opts.maxTries)) :
    classify opts cause tn e = none := by
  unfold classify
  rw [hcan, hhalted, hhalt]
  simp [hmt]

lemma classify_exhausts (opts : EngineOpts) (cause : Option GoErr) (tn : ℕ) (e : GoErr)
    (hcan : isCanceledErr e = false) (hhalted : Halted e = false)
    (hhalt : opts.haltFn = none)
    (h1 : 0 < opts.maxTries) (h2 : (tn : ℤ) = opts.maxTries) :
    classify opts cause tn e = some (some (errExhausted e)) := by
  unfold classify
  rw [hcan, hhalted, hhalt]
  simp [h1, h2]

/-- An operation that fails on every attempt with a retryable error, under
a live context with no halt predicate and an observer configured, drives
the loop through the remaining `n` attempts and ends in exhaustion. -/
lemma FnCtxLoop_exhausts (opts : EngineOpts) (cm : CtxModel) (delays : ℕ → ℤ)
    (errs : ℕ → GoErr) (op : Status → Option GoErr)
    (hop : ∀ st, op st = some (errs st.tryNumber))
    (hcan : ∀ n, isCanceledErr (errs n) = false)
    (hhalted : ∀ n, Halted (errs n) = false)
    (hhalt : opts.haltFn = none)
    (heach : opts.hasEach = true)
    (halive : ∀ n, cm.doneAtWait n = false) :
    ∀ (n try0 fuel : ℕ) (lastErr : Option GoErr) (obs : List Status),
      0 < n → opts.maxTries = ((try0 + n : ℕ) : ℤ) → n ≤ fuel →
      FnCtxLoop opts cm delays op fuel try0 lastErr obs =
        some ⟨some (errExhausted (errs (try0 + n))), try0 + n,
          obs ++ obsFrom opts.maxTries delays errs try0 n⟩ := by
  intro n
  induction n with
  | zero => intro try0 fuel lastErr obs h0; exact absurd h0 (lt_irrefl 0)
  | succ m ih =>
    intro try0 fuel lastErr obs _h0 hmt hfuel
    obtain ⟨f, rfl⟩ : ∃ f, fuel = f + 1 := ⟨fuel - 1, by omega⟩
    unfold FnCtxLoop
    rw [hop ⟨try0 + 1, opts.maxTries, lastErr, delays try0⟩]
    dsimp only
    simp only [heach, if_true]
    by_cases hm : m = 0
    · subst hm
      rw [classify_exhausts opts cm.cause (try0 + 1) (errs (try0 + 1))
        (hcan _) (hhalted _) hhalt (by rw [hmt]; exact_mod_cast Nat.succ_pos _)
        (by rw [hmt])]
      simp [obsFrom]
    · rw [classify_continue opts cm.cause (try0 + 1) (errs (try0 + 1))
        (hcan _) (hhalted _) hhalt (by rw [hmt]; push_cast; omega)]
      dsimp only
      rw [halive (try0 + 1)]
      simp only [if_false, Bool.false_eq_true]
      rw [ih (try0 + 1) f (some (errs (try0 + 1)))
        (obs ++ [Status.mk (try0 + 1) opts.maxTries (some (errs (try0 + 1))) (delays try0)])
        (by omega) (by rw [hmt]; push_cast; omega) (by omega)]
      have harith : try0 + 1 + m = try0 + (m + 1) := by omega
      rw [harith]
      simp [obsFrom]

/-! ## Claim theorems -/

/-- **C1**: for an operation that fails on every invocation with an
ordinary retryable error (not matching cancellation, not a `HaltError`,
no halt predicate configured), running the engine with `maxTries = N > 0`
invokes the operation exactly `N` times, invokes the each-attempt
observer exactly `N` times, and returns an error classified `Exhausted`
wrapping the error of the `N`-th invocation. -/
theorem fnCtx_always_fails_exhausts (opts : EngineOpts) (cm : CtxModel)
    (delays : ℕ → ℤ) (errs : ℕ → GoErr) (op : Status → Option GoErr) (N fuel : ℕ)
    (hop : ∀ st, op st = some (errs st.tryNumber))
    (hcan : ∀ n, isCanceledErr (errs n) = false)
    (hhalted : ∀ n, Halted (errs n) = false)
    (hhalt : opts.haltFn = none)
    (heach : opts.hasEach = true)
    (halive : ∀ n, cm.doneAtWait n = false)
    (hN : opts.maxTries = (N : ℤ)) (hNpos : 0 < N) (hfuel : N ≤ fuel) :
    FnCtxRun opts cm delays op fuel =
      some ⟨some (errExhausted (errs N)), N, obsFrom opts.maxTries delays errs 0 N⟩ ∧
    (obsFrom opts.maxTries delays errs 0 N).length = N ∧
    Exhausted (errExhausted (errs N)) = true := by
  refine ⟨?_, obsFrom_length opts.maxTries delays errs 0 N, rfl⟩
  have h := FnCtxLoop_exhausts opts cm delays errs op hop hcan hhalted hhalt heach halive
    N 0 fuel none [] hNpos (by simpa using hN) hfuel
  simpa [FnCtxRun] using h

/-- Witness for `fnCtx_always_fails_exhausts`: `maxTries = 3` against an
operation that always fails with the `"boom"` error. -/
theorem fnCtx_always_fails_exhausts_witness :
    FnCtxRun ⟨3, none, true, false⟩ ⟨none, fun _ => false⟩ (fun _ => 1)
      (fun _ => some (GoErr.base "boom")) 3 =
      some ⟨some (errExhausted (GoErr.base "boom")), 3,
        obsFrom 3 (fun _ => 1) (fun _ => GoErr.base "boom") 0 3⟩ ∧
    (obsFrom 3 (fun _ => 1) (fun _ => GoErr.base "boom") 0 3).length = 3 ∧
    Exhausted (errExhausted (GoErr.base "boom")) = true :=
  fnCtx_always_fails_exhausts ⟨3, none, true, false⟩ ⟨none, fun _ => false⟩
    (fun _ => 1) (fun _ => GoErr.base "boom") (fun _ => some (GoErr.base "boom")) 3 3
    (fun _ => rfl) (fun _ => rfl) (fun _ => rfl) rfl rfl (fun _ => rfl)
    rfl (by decide) (by decide)

/-- **C2**: on every failed attempt the classification switch applies its
cases in the exact source order — cancellation first, then an error that
is already a `HaltError` (returned unchanged), then the configured halt
predicate (wrapping as a `HaltError`), then exhaustion of the attempt
bound — with the first match winning; in particular an error already
wrapped as a `HaltError` on the final permitted attempt
(`tn = maxTries > 0`) is returned unchanged and classified `Halted`, not
wrapped as `Exhausted`. -/
theorem classify_priority_order (opts : EngineOpts) (cause : Option GoErr)
    (tn : ℕ) (e : GoErr) :
    (isCanceledErr e = true → classify opts cause tn e = some cause) ∧
    (isCanceledErr e = false → Halted e = true →
      classify opts cause tn e = some (some e)) ∧
    (∀ f, opts.haltFn = some f → isCanceledErr e = false → Halted e = false →
      f e = true → classify opts cause tn e = some (some (Halt e))) ∧
    (isCanceledErr e = false → Halted e = false →
      (match opts.haltFn with | some f => f e | none => false) = false →
      0 < opts.maxTries → (tn : ℤ) = opts.maxTries →
      classify opts cause tn e = some (some (errExhausted e))) ∧
    (isCanceledErr e = false → Halted e = false →
      (match opts.haltFn with | some f => f e | none => false) = false →
      ¬(0 < opts.maxTries ∧ (tn : ℤ) = opts.maxTries) →
      classify opts cause tn e = none) ∧
    (∀ e0, isCanceledErr e0 = false → 0 < opts.maxTries → (tn : ℤ) = opts.maxTries →
      classify opts cause tn (GoErr.halt e0) = some (some (GoErr.halt e0)) ∧
      Halted (GoErr.halt e0) = true ∧ Exhausted (GoErr.halt e0) = false) := by
  refine ⟨?_, ?_, ?_, ?_, ?_, ?_⟩
  · intro h1; simp [classify, h1]
  · intro h1 h2; simp [classify, h1, h2]
  · intro f hf h1 h2 h3; simp [classify, hf, h1, h2, h3]
  · intro h1 h2 h3 h4 h5; rw [classify, h1, h2, h3]; simp [h4, h5]
  · intro h1 h2 h3 h4; rw [classify, h1, h2, h3]; simp [h4]
  · intro e0 h1 h2 h3
    refine ⟨?_, rfl, rfl⟩
    have hc : isCanceledErr (GoErr.halt e0) = false := h1
    simp [classify, hc, Halted]

/-- Witness for `classify_priority_order`: a `HaltError` arriving on the
final permitted attempt (`tn = maxTries = 1`) is returned unchanged. -/
theorem classify_priority_order_witness :
    classify ⟨1, none, false, false⟩ none 1 (GoErr.halt (GoErr.base "x")) =
      some (some (GoErr.halt (GoErr.base "x"))) ∧
    Halted (GoErr.halt (GoErr.base "x")) = true ∧
    Exhausted (GoErr.halt (GoErr.base "x")) = false :=
  (classify_priority_order ⟨1, none, false, false⟩ none 1
      (GoErr.halt (GoErr.base "x"))).2.2.2.2.2
    (GoErr.base "x") rfl (by decide) (by decide)

/-- **C3** (counterexample to the claim as stated): with `maxTries = 3`, a
live controlling context (`context.Cause` returns `nil`), and an
operation that fails every attempt with `context.DeadlineExceeded`, the
engine keeps retrying and after 3 invocations returns an
`Exhausted`-classified error wrapping `context.DeadlineExceeded`: a
failed attempt whose error matches deadline expiry is not terminal, and
the run does not return the context's cancellation cause.  (This is the
behaviour the repository's own test
`TestCtxCancel/InnerCtxCancelContinues` asserts.) -/
theorem deadline_error_retried_cex :
    FnCtxRun ⟨3, none, false, false⟩ ⟨none, fun _ => false⟩ (fun _ => 0)
      (fun _ => some GoErr.deadlineExceeded) 3 =
      some ⟨some (GoErr.exhausted GoErr.deadlineExceeded), 3, []⟩ ∧
    Exhausted (GoErr.exhausted GoErr.deadlineExceeded) = true := by decide

/-- **C3** (amended): an error matching `context.DeadlineExceeded` does
not match `context.Canceled`, so the per-attempt classifier does not
treat it as cancellation: with no halt predicate configured it is an
ordinary retryable failure — the loop continues while the attempt bound
is not reached, and the error is wrapped as `ExhaustedError` on the final
permitted attempt.  Expiry of the controlling context itself terminates
the run through the cancellation race during the delay wait, returning
`context.Cause(ctx)`. -/
theorem deadline_error_is_retryable (opts : EngineOpts) (cause : Option GoErr)
    (tn : ℕ) (hhalt : opts.haltFn = none) :
    isCanceledErr GoErr.deadlineExceeded = false ∧
    (¬(0 < opts.maxTries ∧ (tn : ℤ) = opts.maxTries) →
      classify opts cause tn GoErr.deadlineExceeded = none) ∧
    ((0 < opts.maxTries ∧ (tn : ℤ) = opts.maxTries) →
      classify opts cause tn GoErr.deadlineExceeded =
        some (some (errExhausted GoErr.deadlineExceeded))) ∧
    (∀ (cm : CtxModel) (delays : ℕ → ℤ) (op : Status → Option GoErr) (fuel : ℕ),
      0 < fuel →
      op ⟨1, opts.maxTries, none, delays 0⟩ = some GoErr.deadlineExceeded →
      ¬(0 < opts.maxTries ∧ (1 : ℤ) = opts.maxTries) →
      cm.doneAtWait 1 = true →
      FnCtxRun opts cm delays op fuel =
        some ⟨cm.cause, 1, if opts.hasEach
          then [⟨1, opts.maxTries, some GoErr.deadlineExceeded, delays 0⟩] else []⟩) := by
  refine ⟨rfl, ?_, ?_, ?_⟩
  · intro h
    exact classify_continue opts cause tn GoErr.deadlineExceeded rfl rfl hhalt h
  · intro h
    exact classify_exhausts opts cause tn GoErr.deadlineExceeded rfl rfl hhalt h.1 h.2
  · intro cm delays op fuel hf hop hnot hdone
    obtain ⟨f, rfl⟩ : ∃ f, fuel = f + 1 := ⟨fuel - 1, by omega⟩
    unfold FnCtxRun FnCtxLoop
    rw [show ((0 : ℕ) + 1) = 1 from rfl, hop]
    dsimp only
    rw [classify_continue opts cm.cause 1 GoErr.deadlineExceeded rfl rfl hhalt hnot]
    dsimp only
    rw [hdone]
    simp

/-- Witness for `deadline_error_is_retryable`: `maxTries = 3`, a deadline
error on attempt 1 is retryable, on attempt 3 it exhausts, and a
controlling-context expiry during the first wait returns the cause. -/
theorem deadline_error_is_retryable_witness :
    isCanceledErr GoErr.deadlineExceeded = false ∧
    (¬(0 < (⟨3, none, false, false⟩ : EngineOpts).maxTries ∧
        ((1 : ℕ) : ℤ) = (⟨3, none, false, false⟩ : EngineOpts).maxTries) →
      classify ⟨3, none, false, false⟩ none 1 GoErr.deadlineExceeded = none) ∧
    ((0 < (⟨3, none, false, false⟩ : EngineOpts).maxTries ∧
        ((1 : ℕ) : ℤ) = (⟨3, none, false, false⟩ : EngineOpts).maxTries) →
      classify ⟨3, none, false, false⟩ none 1 GoErr.deadlineExceeded =
        some (some (errExhausted GoErr.deadlineExceeded))) ∧
    (∀ (cm : CtxModel) (delays : ℕ → ℤ) (op : Status → Option GoErr) (fuel : ℕ),
      0 < fuel →
      op ⟨1, (3 : ℤ), none, delays 0⟩ = some GoErr.deadlineExceeded →
      ¬(0 < (3 : ℤ) ∧ (1 : ℤ) = (3 : ℤ)) →
      cm.doneAtWait 1 = true →
      FnCtxRun ⟨3, none, false, false⟩ cm delays op fuel =
        some ⟨cm.cause, 1, []⟩) := by
  have h := deadline_error_is_retryable ⟨3, none, false, false⟩ none 1 rfl
  exact ⟨h.1, h.2.1, h.2.2.1, fun cm delays op fuel hf hop hnot hdone =>
    h.2.2.2 cm delays op fuel hf hop hnot hdone⟩

/-- **C4** (code bug): the `noCause` flag set by `CtxCause(false)` is
never consulted by `FnCtx`'s retry loop: a run whose attempt fails with
`context.Canceled` under a context cancelled with cause `"root"` still
returns the looked-up cause even though cause-extraction was disabled,
rather than the raw cancellation error that `CtxCause`'s documentation
promises. -/
theorem noCause_flag_ignored :
    (CtxCause false ⟨10, none, false, false⟩).noCause = true ∧
    FnCtxRun (CtxCause false ⟨10, none, false, false⟩)
      ⟨some (GoErr.base "root"), fun _ => true⟩ (fun _ => 0)
      (fun _ => some GoErr.canceled) 1 =
      some ⟨some (GoErr.base "root"), 1, []⟩ ∧
    some (GoErr.base "root") ≠ some GoErr.canceled := by decide

/-- **C9**: if the controlling context has not been cancelled
(`context.Cause` returns `nil`) and the operation's first attempt fails
with an error matching `context.Canceled` (for example a stray
`context.Canceled` from an unrelated inner context), the engine returns
the context's cause — `nil` — so the run reports success despite the
attempt having failed. -/
theorem stray_canceled_reports_success (opts : EngineOpts) (cm : CtxModel)
    (delays : ℕ → ℤ) (op : Status → Option GoErr) (e : GoErr) (fuel : ℕ)
    (hc : cm.cause = none) (hf : 0 < fuel)
    (hop : op ⟨1, opts.maxTries, none, delays 0⟩ = some e)
    (he : isCanceledErr e = true) :
    FnCtxRun opts cm delays op fuel =
      some ⟨none, 1, if opts.hasEach
        then [⟨1, opts.maxTries, some e, delays 0⟩] else []⟩ := by
  obtain ⟨f, rfl⟩ : ∃ f, fuel = f + 1 := ⟨fuel - 1, by omega⟩
  unfold FnCtxRun FnCtxLoop
  rw [show ((0 : ℕ) + 1) = 1 from rfl, hop]
  dsimp only
  have hcl : classify opts cm.cause 1 e = some cm.cause := by simp [classify, he]
  rw [hcl, hc]
  simp

/-- Witness for `stray_canceled_reports_success`: a live context, one
attempt failing with `context.Canceled`, run reports success. -/
theorem stray_canceled_reports_success_witness :
    FnCtxRun ⟨5, none, true, false⟩ ⟨none, fun _ => false⟩ (fun _ => 0)
      (fun _ => some GoErr.canceled) 5 =
      some ⟨none, 1, if (⟨5, none, true, false⟩ : EngineOpts).hasEach
        then [⟨1, (⟨5, none, true, false⟩ : EngineOpts).maxTries,
          some GoErr.canceled, (fun (_ : ℕ) => (0 : ℤ)) 0⟩] else []⟩ :=
  stray_canceled_reports_success ⟨5, none, true, false⟩ ⟨none, fun _ => false⟩
    (fun _ => 0) (fun _ => some GoErr.canceled) GoErr.canceled 5
    rfl (by decide) rfl rfl

/-- **C8**: when the refresh step fails after a failed attempt, the
composite `RefreshError` fed into classification is not `Halted` or
`Exhausted` by kind; with fn failing every attempt and the refresh step
failing every time (and neither error matching cancellation, no halt
predicate), the input argument stays stale at its initial value and the
loop keeps retrying until `maxTries` is reached, ending in exhaustion of
the final composite error. -/
theorem refresh_failure_treated_retryable {IN : Type} (opts : EngineOpts)
    (cm : CtxModel) (delays : ℕ → ℤ) (fn : ℕ → IN → Option GoErr)
    (refreshFn : ℕ → GoErr ⊕ IN) (fnArg : IN) (ef re : ℕ → GoErr) (N fuel : ℕ)
    (hfn : ∀ k a, fn k a = some (ef k))
    (hre : ∀ k, refreshFn k = Sum.inl (re k))
    (hcan : ∀ k, isCanceledErr (re k) = false ∧ isCanceledErr (ef k) = false)
    (hhalt : opts.haltFn = none)
    (heach : opts.hasEach = true)
    (halive : ∀ n, cm.doneAtWait n = false)
    (hN : opts.maxTries = (N : ℤ)) (hNpos : 0 < N) (hfuel : N ≤ fuel) :
    (∀ r t, Halted (errRefresh r t) = false ∧ Exhausted (errRefresh r t) = false) ∧
    (∀ k, refrArg fn refreshFn fnArg k = fnArg) ∧
    FnInCtxRefrRun opts cm delays fn refreshFn fnArg fuel =
      some ⟨some (errExhausted (errRefresh (re N) (ef N))), N,
        obsFrom opts.maxTries delays (fun k => errRefresh (re k) (ef k)) 0 N⟩ := by
  have harg : ∀ k, refrArg fn refreshFn fnArg k = fnArg := by
    intro k
    induction k with
    | zero => rfl
    | succ m ih => simp [refrArg, hfn, hre, ih]
  refine ⟨fun r t => ⟨rfl, rfl⟩, harg, ?_⟩
  have hop : ∀ st : Status,
      refrOp fn refreshFn fnArg st.tryNumber =
        some ((fun k => errRefresh (re k) (ef k)) st.tryNumber) := by
    intro st
    simp [refrOp, hfn, hre]
  have hcan2 : ∀ k, isCanceledErr (errRefresh (re k) (ef k)) = false := by
    intro k
    simp [errRefresh, isCanceledErr, (hcan k).1, (hcan k).2]
  have h := FnCtxLoop_exhausts opts cm delays (fun k => errRefresh (re k) (ef k))
    (fun st => refrOp fn refreshFn fnArg st.tryNumber) hop hcan2 (fun _ => rfl)
    hhalt heach halive N 0 fuel none [] hNpos (by simpa using hN) hfuel
  simpa [FnInCtxRefrRun, FnCtxRun] using h

/-- Witness for `refresh_failure_treated_retryable`: two attempts, the
function failing with `"fail"` each time and the refresh step failing
with `"refreshfail"` each time. -/
theorem refresh_failure_treated_retryable_witness :
    (∀ r t, Halted (errRefresh r t) = false ∧ Exhausted (errRefresh r t) = false) ∧
    (∀ k, refrArg (fun (_ : ℕ) (_ : ℤ) => some (GoErr.base "fail"))
      (fun _ => Sum.inl (GoErr.base "refreshfail")) (0 : ℤ) k = 0) ∧
    FnInCtxRefrRun ⟨2, none, true, false⟩ ⟨none, fun _ => false⟩ (fun _ => 0)
      (fun (_ : ℕ) (_ : ℤ) => some (GoErr.base "fail"))
      (fun _ => Sum.inl (GoErr.base "refreshfail")) (0 : ℤ) 2 =
      some ⟨some (errExhausted (errRefresh (GoErr.base "refreshfail") (GoErr.base "fail"))), 2,
        obsFrom 2 (fun _ => 0)
          (fun _ => errRefresh (GoErr.base "refreshfail") (GoErr.base "fail")) 0 2⟩ :=
  refresh_failure_treated_retryable ⟨2, none, true, false⟩ ⟨none, fun _ => false⟩
    (fun _ => 0) (fun _ _ => some (GoErr.base "fail"))
    (fun _ => Sum.inl (GoErr.base "refreshfail")) 0
    (fun _ => GoErr.base "fail") (fun _ => GoErr.base "refreshfail") 2 2
    (fun _ _ => rfl) (fun _ => rfl) (fun _ => ⟨rfl, rfl⟩) rfl rfl (fun _ => rfl)
    rfl (by decide) (by decide)

/-- **C10**: whenever a run of the value-returning retriers (`FnOutCtx`,
`FnIOCtx`) completes with a non-nil error, the `OUT` value returned is
the zero value of `OUT`, never the value produced by the final
unsuccessful invocation of the operation. -/
theorem out_zero_value_on_error {IN OUT : Type} (opts : EngineOpts) (cm : CtxModel)
    (delays : ℕ → ℤ) (zeroV : OUT) (fuel : ℕ) :
    (∀ (fn : Status → OUT × Option GoErr) (v : OUT) (e : GoErr),
      FnOutCtxRun opts cm delays fn zeroV fuel = some (v, some e) → v = zeroV) ∧
    (∀ (fn : Status → IN → OUT × Option GoErr) (fnArg : IN) (v : OUT) (e : GoErr),
      FnIOCtxRun opts cm delays fn fnArg zeroV fuel = some (v, some e) → v = zeroV) := by
  have h1 : ∀ (fn : Status → OUT × Option GoErr) (v : OUT) (e : GoErr),
      FnOutCtxRun opts cm delays fn zeroV fuel = some (v, some e) → v = zeroV := by
    intro fn v e h
    unfold FnOutCtxRun at h
    cases hl : FnOutCtxLoop opts cm delays fn fuel 0 none [] zeroV with
    | none => rw [hl] at h; exact absurd h (by simp)
    | some p =>
      obtain ⟨val, r⟩ := p
      rw [hl] at h
      dsimp only at h
      cases hr : r.err with
      | none => rw [hr] at h; simp at h
      | some e2 => rw [hr] at h; simp at h; exact h.1.symm
  exact ⟨h1, fun fn fnArg v e h => h1 (fun st => fn st fnArg) v e h⟩

/-- Witness for `out_zero_value_on_error`: a single-attempt run that
fails returns the zero value `0` rather than the invocation's value `1`. -/
theorem out_zero_value_on_error_witness :
    FnOutCtxRun ⟨1, none, false, false⟩ ⟨none, fun _ => false⟩ (fun _ => 0)
      (fun st => (st.tryNumber, some (GoErr.base "x"))) 0 1 =
      some (0, some (GoErr.exhausted (GoErr.base "x"))) ∧ (0 : ℕ) = 0 :=
  ⟨by decide,
    (@out_zero_value_on_error ℕ ℕ ⟨1, none, false, false⟩ ⟨none, fun _ => false⟩
        (fun _ => 0) 0 1).1
      (fun st => (st.tryNumber, some (GoErr.base "x"))) 0
      (GoErr.exhausted (GoErr.base "x")) (by decide)⟩

/-- **C5**: for `initialMedian > 0` and `maxDelay ≥ initialMedian`
(`time.Duration` values, hence at most `math.MaxInt64 = 2^63 - 1`), every
call of the generator returns a delay of at most `maxDelay`; moreover,
when the computed sample exceeds `maxDelay`, the clamped value `maxDelay`
is returned and `prev` is left unchanged (the iteration counter still
advances), so the generator's internal trajectory continues unclamped. -/
theorem backoff_never_exceeds_maxDelay (initialMedian maxDelay : ℤ) (firstFast : Bool)
    (u : ℝ) (s : BackoffState)
    (h0 : 0 < initialMedian) (h1 : initialMedian ≤ maxDelay)
    (h2 : maxDelay ≤ 2 ^ 63 - 1) :
    (backoffNext initialMedian maxDelay firstFast u s).1 ≤ (maxDelay : ℝ) ∧
    (¬(s.i = 0 ∧ firstFast = true) →
      (maxDelay : ℝ) < (curve ((s.i : ℝ) + u) - s.prev) * (initialMedian : ℝ) →
      backoffNext initialMedian maxDelay firstFast u s =
        ((maxDelay : ℝ), ⟨s.i + 1, s.prev⟩)) := by
  have hmdz : (0 : ℤ) < maxDelay := lt_of_lt_of_le h0 h1
  have hmd0 : (0 : ℝ) < (maxDelay : ℝ) := by exact_mod_cast hmdz
  constructor
  · unfold backoffNext
    split_ifs with hff hcl hov
    · exact le_of_lt hmd0
    · exact le_refl _
    · have hle : (curve ((s.i : ℝ) + u) - s.prev) * (initialMedian : ℝ) ≤ (maxDelay : ℝ) := by
        by_contra hgt
        exact hcl ⟨hmdz, lt_of_not_le hgt⟩
      have h3 : ((2 ^ 63 - 2 : ℤ) : ℝ) < (maxDelay : ℝ) := by
        have hm : maxintf = ((2 ^ 63 - 2 : ℤ) : ℝ) := by
          unfold maxintf maxInt64R; push_cast; ring
        rw [← hm]
        exact lt_of_lt_of_le hov hle
      have h4 : (2 ^ 63 - 2 : ℤ) < maxDelay := by exact_mod_cast h3
      have h5 : maxDelay = 2 ^ 63 - 1 := by omega
      have h6 : maxInt64R = ((2 ^ 63 - 1 : ℤ) : ℝ) := by
        unfold maxInt64R; push_cast; ring
      rw [h5, h6]
    · by_contra hgt
      exact hcl ⟨hmdz, lt_of_not_le hgt⟩
  · intro hns hcl
    unfold backoffNext
    rw [if_neg hns, if_pos ⟨hmdz, hcl⟩]

/-- Witness for `backoff_never_exceeds_maxDelay`: `initialMedian = 1`,
`maxDelay = 1`, a `firstFast` generator in its initial state. -/
theorem backoff_never_exceeds_maxDelay_witness :
    (backoffNext 1 1 true 0 ⟨0, 0⟩).1 ≤ ((1 : ℤ) : ℝ) ∧
    (¬((0 : ℕ) = 0 ∧ true = true) →
      ((1 : ℤ) : ℝ) < (curve (((0 : ℕ) : ℝ) + 0) - 0) * ((1 : ℤ) : ℝ) →
      backoffNext 1 1 true 0 ⟨0, 0⟩ = (((1 : ℤ) : ℝ), ⟨0 + 1, 0⟩)) :=
  backoff_never_exceeds_maxDelay 1 1 true 0 ⟨0, 0⟩ (by decide) (by decide) (by decide)

/-- **C6**: on every non-special-cased call with counter `i` and previous
value `v`, the generator draws `t = i + u` (with `u` the fresh uniform
sample of the call), increments `i` by exactly one, computes
`raw = 2^t · tanh(sqrt(4.0·t))` — the source's envelope `curve` equals
the spec's formula `specRawEnvelope` — and in the unclamped,
non-overflowing case returns `(raw - v) * initialMedian` while updating
`v` to `raw`. -/
theorem backoff_step_formula (initialMedian maxDelay : ℤ) (firstFast : Bool)
    (u : ℝ) (s : BackoffState)
    (hns : ¬(s.i = 0 ∧ firstFast = true)) :
    (backoffNext initialMedian maxDelay firstFast u s).2.i = s.i + 1 ∧
    curve ((s.i : ℝ) + u) = specRawEnvelope ((s.i : ℝ) + u) ∧
    (¬(0 < maxDelay ∧
        (maxDelay : ℝ) < (curve ((s.i : ℝ) + u) - s.prev) * (initialMedian : ℝ)) →
     ¬(maxintf < (curve ((s.i : ℝ) + u) - s.prev) * (initialMedian : ℝ)) →
      backoffNext initialMedian maxDelay firstFast u s =
        ((curve ((s.i : ℝ) + u) - s.prev) * (initialMedian : ℝ),
          ⟨s.i + 1, curve ((s.i : ℝ) + u)⟩)) := by
  refine ⟨?_, rfl, ?_⟩
  · unfold backoffNext
    rw [if_neg hns]
    split_ifs <;> rfl
  · intro h1 h2
    unfold backoffNext
    rw [if_neg hns, if_neg h1, if_neg h2]

/-- Witness for `backoff_step_formula`: a generator past its first
iteration (`i = 1`) with `initialMedian = 0` and `maxDelay = 0`
(unbounded), where neither clamp nor overflow can fire. -/
theorem backoff_step_formula_witness :
    (backoffNext 0 0 false 0 ⟨1, 0⟩).2.i = 1 + 1 ∧
    curve (((1 : ℕ) : ℝ) + 0) = specRawEnvelope (((1 : ℕ) : ℝ) + 0) ∧
    (¬(0 < (0 : ℤ) ∧
        ((0 : ℤ) : ℝ) < (curve (((1 : ℕ) : ℝ) + 0) - 0) * ((0 : ℤ) : ℝ)) →
     ¬(maxintf < (curve (((1 : ℕ) : ℝ) + 0) - 0) * ((0 : ℤ) : ℝ)) →
      backoffNext 0 0 false 0 ⟨1, 0⟩ =
        ((curve (((1 : ℕ) : ℝ) + 0) - 0) * ((0 : ℤ) : ℝ),
          ⟨1 + 1, curve (((1 : ℕ) : ℝ) + 0)⟩)) :=
  backoff_step_formula 0 0 false 0 ⟨1, 0⟩ (by simp)

/-- **C7**: with `firstFast = true`, the very first call (`i = 0`) returns
a delay of exactly zero, increments the iteration counter to 1 (it is not
reset) and leaves `prev` untouched; and every call with `i ≥ 1` behaves
exactly as the `firstFast = false` generator does, as if `firstFast` had
consumed iteration 0. -/
theorem backoff_firstFast_zero (initialMedian maxDelay : ℤ) (u : ℝ)
    (s : BackoffState) (h : s.i = 0) :
    backoffNext initialMedian maxDelay true u s = (0, ⟨s.i + 1, s.prev⟩) ∧
    (∀ (u2 : ℝ) (s2 : BackoffState), 1 ≤ s2.i →
      backoffNext initialMedian maxDelay true u2 s2 =
        backoffNext initialMedian maxDelay false u2 s2) := by
  constructor
  · unfold backoffNext
    rw [if_pos ⟨h, rfl⟩]
  · intro u2 s2 h2
    unfold backoffNext
    rw [if_neg (show ¬(s2.i = 0 ∧ true = true) by rintro ⟨h0, _⟩; omega),
      if_neg (show ¬(s2.i = 0 ∧ false = true) by simp)]

/-- Witness for `backoff_firstFast_zero`: the initial state `i = 0`,
`prev = 0`. -/
theorem backoff_firstFast_zero_witness :
    backoffNext 2 5 true 0 ⟨0, 0⟩ = (0, ⟨0 + 1, 0⟩) ∧
    (∀ (u2 : ℝ) (s2 : BackoffState), 1 ≤ s2.i →
      backoffNext 2 5 true u2 s2 = backoffNext 2 5 false u2 s2) :=
  backoff_firstFast_zero 2 5 0 ⟨0, 0⟩ rfl
